import Mathlib

/-!
Verification of the orders module (order/item state machine, totals,
kitchen-station routing, order-number generation) of `module_orders`.

Shallow embedding conventions:
- money amounts (Decimal with 2 fractional digits in the source) are
  embedded as `Int` numbers of cents — addition, subtraction and
  multiplication by an integer quantity are exact in both representations;
- timestamps (`timezone.now()` instants) are embedded as `Nat` seconds;
  `timedelta.total_seconds() / 60` truncated by `int(...)` becomes
  `Nat` division by 60;
- Django model instances become structures; a queryset
  `.filter(...).update(...)` becomes a `List.map` that rewrites exactly
  the rows matched by the filter; `.get(...)` with a uniqueness
  constraint becomes `List.find?`;
- `save(update_fields=[...])` persists only the listed fields, so the
  embedded operation only changes those fields of the row;
- soft deletion (`is_deleted` of `HubBaseModel`) is a `Bool` field, and
  every query in the source filters on it explicitly.
-/

namespace Orders

/-- Order lifecycle statuses (`Order.STATUS_CHOICES`, models.py:108-115). -/
inductive OrderStatus
  | pending
  | preparing
  | ready
  | served
  | paid
  | cancelled
deriving DecidableEq, Repr

/-- Order item lifecycle statuses (`OrderItem.STATUS_CHOICES`, models.py:329-335):
the order statuses without `paid`. -/
inductive ItemStatus
  | pending
  | preparing
  | ready
  | served
  | cancelled
deriving DecidableEq, Repr

/-- Snapshot-relevant fields of the `inventory.Product` collaborator: a
name and a price, as consumed by `OrderItem.save` (models.py:412-419). -/
structure ProductRef where
  name : String
  price : Int
deriving DecidableEq, Repr

/-- Model `OrderItem` (models.py:326-443): one line of an order.
`product` is the optional product reference; `product_name`/`unit_price`
are the snapshot taken at creation; `total` is the stored line total. -/
structure OrderItem where
  product : Option ProductRef := none
  product_name : String := ""
  unit_price : Int := 0
  quantity : Nat := 1
  total : Int := 0
  status : ItemStatus := ItemStatus.pending
  is_deleted : Bool := false
  fired_at : Option Nat := none
  started_at : Option Nat := none
  completed_at : Option Nat := none
deriving DecidableEq, Repr

/-- Model `Order` (models.py:105-319) with its owned items inlined as a list
(the reverse relation `order.items`). -/
structure Order where
  status : OrderStatus := OrderStatus.pending
  notes : String := ""
  subtotal : Int := 0
  tax : Int := 0
  discount : Int := 0
  total : Int := 0
  fired_at : Option Nat := none
  ready_at : Option Nat := none
  served_at : Option Nat := none
  items : List OrderItem := []
deriving DecidableEq, Repr

/-- Per-hub settings consulted by `Order.is_delayed`
(`OrdersSettings`, models.py:28-56). -/
structure OrdersSettings where
  alert_threshold_minutes : Nat := 15
deriving DecidableEq, Repr

/-- Embeds `OrderItem.save` (models.py:412-419), the full save (no
`update_fields` restriction): recompute `total = unit_price * quantity`;
backfill `product_name` from the product if it is falsy (empty); backfill
`unit_price` (and recompute `total`) from the product if it is falsy
(zero — the field is non-null with default 0). -/
def OrderItem.save (i : OrderItem) : OrderItem :=
  let i1 : OrderItem := { i with total := i.unit_price * (i.quantity : Int) }
  let i2 : OrderItem :=
    if i1.product_name = "" then
      match i1.product with
      | some p => { i1 with product_name := p.name }
      | none => i1
    else i1
  if i2.unit_price = 0 then
    match i2.product with
    | some p => { i2 with unit_price := p.price, total := p.price * (i2.quantity : Int) }
    | none => i2
  else i2

/-- Embeds `Order.calculate_totals` (models.py:251-255): subtotal is the sum of
the totals of the non-deleted items; total is subtotal − discount + tax;
the method returns the total. -/
def Order.calculate_totals (o : Order) : Order × Int :=
  let sub : Int := ((o.items.filter fun i => !i.is_deleted).map fun i => i.total).sum
  let tot : Int := sub - o.discount + o.tax
  ({ o with subtotal := sub, total := tot }, tot)

/-- Embeds `Order.fire` (models.py:259-270): one `now` instant; the order gets
`fired_at = now`, `status = preparing`; the queryset update rewrites
exactly the non-deleted items whose status is `pending`. -/
def Order.fire (now : Nat) (o : Order) : Order :=
  { o with
    fired_at := some now
    status := OrderStatus.preparing
    items := o.items.map fun i =>
      if i.is_deleted = false ∧ i.status = ItemStatus.pending then
        { i with status := ItemStatus.preparing, fired_at := some now }
      else i }

/-- Embeds `Order.mark_ready` (models.py:272-276). -/
def Order.mark_ready (now : Nat) (o : Order) : Order :=
  { o with status := OrderStatus.ready, ready_at := some now }

/-- Embeds `Order.mark_served` (models.py:278-282). -/
def Order.mark_served (now : Nat) (o : Order) : Order :=
  { o with status := OrderStatus.served, served_at := some now }

/-- Python `str.strip()` (no argument): drop leading and trailing
whitespace characters. -/
def pyStrip (s : String) : String :=
  String.mk (((s.data.dropWhile Char.isWhitespace).reverse.dropWhile Char.isWhitespace).reverse)

/-- Embeds `Order.cancel` (models.py:284-290): status becomes `cancelled`; when
`reason` is truthy (non-empty) the notes become
`f"{notes}\nCancelled: {reason}".strip()`; every non-deleted item is set
to `cancelled`. -/
def Order.cancel (reason : String) (o : Order) : Order :=
  { o with
    status := OrderStatus.cancelled
    notes := if reason ≠ "" then pyStrip (o.notes ++ "\nCancelled: " ++ reason) else o.notes
    items := o.items.map fun i =>
      if i.is_deleted = false then { i with status := ItemStatus.cancelled } else i }

/-- Embeds `Order.recall` (models.py:292-301): only acts when the status is
`ready`; then the status goes back to `preparing`, `ready_at` is
cleared, and each non-deleted item with status `ready` goes back to
`preparing` with `completed_at` cleared. Otherwise nothing happens. -/
def Order.recall (o : Order) : Order :=
  if o.status = OrderStatus.ready then
    { o with
      status := OrderStatus.preparing
      ready_at := none
      items := o.items.map fun i =>
        if i.is_deleted = false ∧ i.status = ItemStatus.ready then
          { i with status := ItemStatus.preparing, completed_at := none }
        else i }
  else o

/-- Embeds `Order.elapsed_minutes` (models.py:216-220): 0 when never fired,
otherwise whole minutes (truncated) between `fired_at` and `now`. -/
def Order.elapsed_minutes (now : Nat) (o : Order) : Nat :=
  match o.fired_at with
  | none => 0
  | some f => (now - f) / 60

/-- Embeds `Order.is_delayed` (models.py:229-235): status in
{pending, preparing} and elapsed minutes strictly above the hub's
`alert_threshold_minutes`. -/
def Order.is_delayed (s : OrdersSettings) (now : Nat) (o : Order) : Bool :=
  decide ((o.status = OrderStatus.pending ∨ o.status = OrderStatus.preparing) ∧
    s.alert_threshold_minutes < o.elapsed_minutes now)

/-- Replace the element at index `n` by `f` of it (identity when `n` is
out of range): the effect of saving one row of the item list. -/
def modifyIdx (f : OrderItem → OrderItem) : Nat → List OrderItem → List OrderItem
  | _, [] => []
  | 0, x :: xs => f x :: xs
  | n + 1, x :: xs => x :: modifyIdx f n xs

/-- The sibling check of `OrderItem.mark_ready` (models.py:433-435):
`order.items.filter(is_deleted=False).exclude(status__in=['ready',
'served', 'cancelled']).exists()`. -/
def anyActiveItem (l : List OrderItem) : Bool :=
  (l.filter fun i => !i.is_deleted).any fun i =>
    !(decide (i.status = ItemStatus.ready ∨ i.status = ItemStatus.served ∨
      i.status = ItemStatus.cancelled))

/-- The item-level effect of `OrderItem.mark_ready` (models.py:428-430):
status `ready`, `completed_at = now`. -/
def markReadyItem (now : Nat) (i : OrderItem) : OrderItem :=
  { i with status := ItemStatus.ready, completed_at := some now }

/-- Embeds `OrderItem.mark_ready` (models.py:427-438) acting on the item at
index `idx` of its order: the item gets status `ready` and
`completed_at = now`; then, if no non-deleted item of the order has a
status outside {ready, served, cancelled}, the parent order's
`mark_ready` runs (at the later instant `nowOrder` of its own
`timezone.now()` call). -/
def OrderItem.mark_ready (now nowOrder : Nat) (o : Order) (idx : Nat) : Order :=
  let o1 : Order := { o with items := modifyIdx (markReadyItem now) idx o.items }
  if anyActiveItem o1.items = false then Order.mark_ready nowOrder o1 else o1

/-- Embeds `OrderItem.cancel` (models.py:440-443): `save(update_fields=
['status', 'updated_at'])` persists only the status, so the stored row
changes in no other field. -/
def OrderItem.cancel (i : OrderItem) : OrderItem :=
  { i with status := ItemStatus.cancelled }

/-- Method `OrderItem.cancel` seen at the level of the owning order: the item at
index `idx` is cancelled; the method touches nothing else. -/
def cancelItemInOrder (o : Order) (idx : Nat) : Order :=
  { o with items := modifyIdx OrderItem.cancel idx o.items }

/-- Embeds `views.cancel_order` (views.py:305-316): refuses (HTTP 400, no
mutation) when the order's status is `paid` or `cancelled`, otherwise
runs `Order.cancel(reason)`; the `Bool` is the `success` flag of the
JSON response. -/
def cancel_order_view (o : Order) (reason : String) : Order × Bool :=
  if o.status = OrderStatus.paid ∨ o.status = OrderStatus.cancelled then (o, false)
  else (o.cancel reason, true)

/-- Model `KitchenStation` (models.py:63-98), the routing-relevant fields. -/
structure KitchenStation where
  id : Nat
  is_active : Bool := true
deriving DecidableEq, Repr

/-- Model `ProductStation` (models.py:478-507): one row mapping a product to a
station; `unique_together (hub_id, product)` means at most one row per
product. -/
structure ProductStationRow where
  product_id : Nat
  station_id : Nat
  is_deleted : Bool := false
deriving DecidableEq, Repr

/-- Model `CategoryStation` (models.py:510-539): one row mapping a category to
a station; `unique_together (hub_id, category)` means at most one row per
category. -/
structure CategoryStationRow where
  category_id : Nat
  station_id : Nat
  is_deleted : Bool := false
deriving DecidableEq, Repr

/-- The `inventory.Product` fields routing reads: primary key and
optional category. -/
structure ProductRow where
  id : Nat
  category_id : Option Nat := none
deriving DecidableEq, Repr

/-- The tables one hub's routing queries read. -/
structure RoutingDB where
  stations : List KitchenStation := []
  product_mappings : List ProductStationRow := []
  category_mappings : List CategoryStationRow := []
  products : List ProductRow := []
deriving Repr

/-- Follow a station foreign key (stations are never hard-deleted). -/
def findStation (db : RoutingDB) (sid : Nat) : Option KitchenStation :=
  db.stations.find? fun s => decide (s.id = sid)

/-- The join condition `station__is_active=True` of the two `.get(...)`
queries. -/
def stationIsActive (db : RoutingDB) (sid : Nat) : Bool :=
  match findStation db sid with
  | some s => s.is_active
  | none => false

/-- Embeds `ProductStation.get_station_for_product` (models.py:499-507):
`get(hub_id, product_id, station__is_active=True, is_deleted=False)
.station`, with `DoesNotExist` mapped to `none`. -/
def ProductStationRow.get_station_for_product (db : RoutingDB) (pid : Nat) :
    Option KitchenStation :=
  match db.product_mappings.find? (fun m =>
      decide (m.product_id = pid) && !m.is_deleted && stationIsActive db m.station_id) with
  | some m => findStation db m.station_id
  | none => none

/-- Embeds `CategoryStation.get_station_for_category` (models.py:531-539). -/
def CategoryStationRow.get_station_for_category (db : RoutingDB) (cid : Nat) :
    Option KitchenStation :=
  match db.category_mappings.find? (fun m =>
      decide (m.category_id = cid) && !m.is_deleted && stationIsActive db m.station_id) with
  | some m => findStation db m.station_id
  | none => none

/-- Module-level `get_station_for_product` (models.py:542-561): direct
product mapping first; else look the product up (any exception — e.g. no
such product — is swallowed and yields `none`), and when it has a
category, try the category mapping; else `none`. A pure read: it takes
`db` and returns a value without modifying anything. -/
def get_station_for_product (db : RoutingDB) (pid : Nat) : Option KitchenStation :=
  match ProductStationRow.get_station_for_product db pid with
  | some s => some s
  | none =>
    match db.products.find? (fun p => decide (p.id = pid)) with
    | none => none
    | some p =>
      match p.category_id with
      | none => none
      | some cid => CategoryStationRow.get_station_for_category db cid

/-!
Order-number generation (models.py:305-319). Strings are manipulated as
their character lists: `splitCh` embeds Python's `str.split('-')`,
`parseNat` embeds `int(...)` on the digit strings at hand (failure =
`none` = Python's `ValueError` branch), `lexLt` embeds the string
ordering `order_by('-order_number')` sorts by (byte-lexicographic on
these ASCII strings), and `format04` embeds the `f"{num:04d}"` format. -/

/-- Python `s.split(c)` on character lists: `splitCh c l` is never empty,
and splitting an empty list gives one empty segment. -/
def splitCh (c : Char) : List Char → List (List Char)
  | [] => [[]]
  | x :: xs =>
    let r := splitCh c xs
    if x = c then [] :: r
    else
      match r with
      | [] => [[x]]
      | h :: t => (x :: h) :: t

/-- Python `int(s)` restricted to unsigned decimal digit strings:
`some` of the value on a non-empty all-digit string, else `none`
(the `ValueError` of `int(...)`). -/
def parseNat (l : List Char) : Option Nat :=
  if l ≠ [] ∧ l.all (fun c => c.isDigit) then
    some (l.foldl (fun a c => a * 10 + (c.toNat - 48)) 0)
  else none

/-- Byte-lexicographic strict order on character lists: the order the
database sorts `order_number` strings by (they are ASCII). -/
def lexLt : List Char → List Char → Bool
  | [], [] => false
  | [], _ :: _ => true
  | _ :: _, [] => false
  | a :: as, b :: bs =>
    if a.toNat < b.toNat then true
    else if b.toNat < a.toNat then false
    else lexLt as bs

/-- Embeds `order_by('-order_number').first()` over a non-empty list: the
lexicographically greatest element (first one kept on ties). -/
def lexMaxAux (acc : List Char) : List (List Char) → List Char
  | [] => acc
  | s :: rest => lexMaxAux (if lexLt acc s then s else acc) rest

/-- Embeds `order_by('-order_number').first()`: `none` on an empty queryset. -/
def lexMax? : List (List Char) → Option (List Char)
  | [] => none
  | s :: rest => some (lexMaxAux s rest)

/-- The decimal digit characters. -/
def decDigit : Nat → Char
  | 0 => '0'
  | 1 => '1'
  | 2 => '2'
  | 3 => '3'
  | 4 => '4'
  | 5 => '5'
  | 6 => '6'
  | 7 => '7'
  | 8 => '8'
  | _ => '9'

/-- Plain decimal rendering, structurally recursive on a fuel bound (any
fuel above the value works, see `decReprAux_fuel`). -/
def decReprAux : Nat → Nat → List Char
  | 0, _ => []
  | fuel + 1, n =>
    if n < 10 then [decDigit n]
    else decReprAux fuel (n / 10) ++ [decDigit (n % 10)]

/-- Plain decimal rendering of a natural number (no padding). -/
def decRepr (n : Nat) : List Char :=
  decReprAux (n + 1) n

/-- Embeds `f"{num:04d}"`: decimal digits zero-padded on the left to at least
four characters. -/
def format04 (n : Nat) : List Char :=
  List.replicate (4 - (decRepr n).length) '0' ++ decRepr n

/-- The four digit characters of a number below 10000 (the closed form
`format04` takes there, see `format04_eq_digits4`). -/
def digits4 (m : Nat) : List Char :=
  [decDigit (m / 1000), decDigit (m / 100 % 10), decDigit (m / 10 % 10), decDigit (m % 10)]

/-- The shape of every generated order number: prefix, dash, padded
counter. -/
def encNum (pfx : List Char) (c : Nat) : List Char :=
  pfx ++ '-' :: format04 c

/-- Python `l.startswith(prefix)` on character lists. -/
def startsWith : List Char → List Char → Bool
  | _, [] => true
  | [], _ :: _ => false
  | x :: xs, p :: ps => x = p && startsWith xs ps

/-- Embeds `Order.generate_order_number` (models.py:305-319) for one hub, given
the day's `prefix` (`today.strftime('%Y%m%d')`) and the `order_number`
strings of all the hub's existing orders (`cls.all_objects`, so deleted
ones included): take the lexicographically greatest existing number
starting with the prefix; if there is one, the next counter is
`int(last.split('-')[-1]) + 1`, falling back to 1 when the last segment
does not parse; otherwise 1; render as `f"{prefix}-{num:04d}"`. -/
def generate_order_number (pfx : List Char) (existing : List (List Char)) : List Char :=
  let matching := existing.filter fun s => startsWith s pfx
  match lexMax? matching with
  | none => pfx ++ '-' :: format04 1
  | some last =>
    let seg := (splitCh '-' last).getLastD []
    let num := match parseNat seg with
      | some n => n + 1
      | none => 1
    pfx ++ '-' :: format04 num

/-- A concrete item for the C2 witness: product reference present, name
and price both missing, quantity 2. -/
def sampleUnsnapshottedItem : OrderItem where
  product := some ⟨"Burger", 1000⟩
  product_name := ""
  unit_price := 0
  quantity := 2

/-- A concrete one-line order for the C3 witness: a single non-deleted
pending item. -/
def samplePendingOrder : Order where
  items := [{ product_name := "Fries", unit_price := 350, quantity := 1, total := 350 }]

/-- A concrete fired order for the C6 witness: `preparing`, fired at
instant 0. -/
def sampleFiredOrder : Order where
  status := OrderStatus.preparing
  fired_at := some 0

/-- A cancellable order for the C7 witness: `pending`, existing notes,
one non-deleted item. -/
def sampleCancellableOrder : Order where
  status := OrderStatus.pending
  notes := "table 5"
  items := [{ product_name := "Cola", unit_price := 250, quantity := 1, total := 250 }]

/-- A paid order for the C7 witness. -/
def samplePaidOrder : Order where
  status := OrderStatus.paid

/-- A ready item for the C8 witness. -/
def sampleReadyItem : OrderItem where
  product_name := "Cake"
  unit_price := 400
  quantity := 1
  total := 400
  status := ItemStatus.ready
  completed_at := some 9

/-- A ready order holding `sampleReadyItem`, for the C8 witness. -/
def sampleReadyOrder : Order where
  status := OrderStatus.ready
  ready_at := some 9
  items := [sampleReadyItem]

/-- One order line for the C10 witness. -/
def sampleBurgerItem : OrderItem where
  product_name := "Burger"
  unit_price := 1000
  quantity := 2
  total := 2000

/-- A second order line for the C10 witness. -/
def sampleFriesItem : OrderItem where
  product_name := "Fries"
  unit_price := 350
  quantity := 1
  total := 350

/-- A two-line order for the C10 witness. -/
def sampleTwoItemOrder : Order where
  items := [sampleBurgerItem, sampleFriesItem]

/-- A concrete routing table for the C5 witness: station 1 and station 2
are active; product 10 is mapped straight to station 1; product 20 has
no direct mapping but belongs to category 5, which is mapped to
station 2. -/
def sampleRoutingDB : RoutingDB where
  stations := [⟨1, true⟩, ⟨2, true⟩]
  product_mappings := [⟨10, 1, false⟩]
  category_mappings := [⟨5, 2, false⟩]
  products := [⟨10, none⟩, ⟨20, some 5⟩]

/-- The day prefix 2026-01-01 for the C9 witness. -/
def sampleDayPfx : List Char := ['2', '0', '2', '6', '0', '1', '0', '1']

/-- Two existing order numbers of that day, counters 1 and 2, for the
C9 witness. -/
def sampleExisting : List (List Char) :=
  [sampleDayPfx ++ '-' :: format04 1, sampleDayPfx ++ '-' :: format04 2]

/-!  Theorems. -/

/-- The rendering does not depend on the fuel once it covers the value. -/
theorem decReprAux_fuel :
    ∀ (f₁ : Nat) (n : Nat), n < f₁ → ∀ (f₂ : Nat), n < f₂ →
      decReprAux f₁ n = decReprAux f₂ n
  | 0, n, h, _, _ => absurd h (Nat.not_lt_zero n)
  | _ + 1, n, h₁, 0, h₂ => absurd h₂ (Nat.not_lt_zero n)
  | f₁ + 1, n, h₁, f₂ + 1, h₂ => by
    by_cases hn : n < 10
    · simp [decReprAux, hn]
    · have hdiv : n / 10 < f₁ := by omega
      have hdiv₂ : n / 10 < f₂ := by omega
      simp [decReprAux, hn, decReprAux_fuel f₁ (n / 10) hdiv f₂ hdiv₂]

/-- Unfolding `decRepr` below 10. -/
theorem decRepr_lt10 (n : Nat) (h : n < 10) : decRepr n = [decDigit n] := by
  simp [decRepr, decReprAux, h]

/-- Unfolding `decRepr` at 10 and above. -/
theorem decRepr_ge10 (n : Nat) (h : ¬ n < 10) :
    decRepr n = decRepr (n / 10) ++ [decDigit (n % 10)] := by
  show decReprAux (n + 1) n = decReprAux (n / 10 + 1) (n / 10) ++ [decDigit (n % 10)]
  have step : decReprAux (n + 1) n =
      if n < 10 then [decDigit n] else decReprAux n (n / 10) ++ [decDigit (n % 10)] := rfl
  rw [step, if_neg h, decReprAux_fuel n (n / 10) (by omega) (n / 10 + 1) (Nat.lt_succ_self _)]

/-- C1: after `calculate_totals`, the order's `total` field equals
`subtotal - discount + tax` where `subtotal` is the sum of the totals of
the non-deleted items; `discount` and `tax` are left as they were; the
method's return value is that total. -/
theorem calculate_totals_spec (o : Order) :
    (o.calculate_totals).1.total =
      (o.calculate_totals).1.subtotal - (o.calculate_totals).1.discount +
        (o.calculate_totals).1.tax ∧
    (o.calculate_totals).1.subtotal =
      ((o.items.filter fun i => !i.is_deleted).map fun i => i.total).sum ∧
    (o.calculate_totals).1.discount = o.discount ∧
    (o.calculate_totals).1.tax = o.tax ∧
    (o.calculate_totals).2 = (o.calculate_totals).1.total :=
  ⟨rfl, rfl, rfl, rfl, rfl⟩

/-- C2: after `OrderItem.save`, `total = unit_price * quantity` (for the
saved values); the quantity is untouched; when the item holds a product
reference and the name (resp. the price) is missing, the saved name
(resp. price) comes from the product snapshot, and otherwise the stored
name (resp. price) is kept. -/
theorem order_item_save_spec (i : OrderItem) :
    (OrderItem.save i).total =
      (OrderItem.save i).unit_price * ((OrderItem.save i).quantity : Int) ∧
    (OrderItem.save i).quantity = i.quantity ∧
    (∀ p, i.product = some p → i.product_name = "" →
      (OrderItem.save i).product_name = p.name) ∧
    (∀ p, i.product = some p → i.unit_price = 0 →
      (OrderItem.save i).unit_price = p.price) ∧
    (i.product_name ≠ "" → (OrderItem.save i).product_name = i.product_name) ∧
    (i.unit_price ≠ 0 → (OrderItem.save i).unit_price = i.unit_price) := by
  cases hp : i.product <;>
    by_cases hn : i.product_name = "" <;>
    by_cases hu : i.unit_price = 0 <;>
    simp [OrderItem.save, hp, hn, hu]

/-- Witness for C2 at `sampleUnsnapshottedItem`: the name and price are
backfilled from the snapshot. -/
theorem order_item_save_spec_witness :
    (OrderItem.save sampleUnsnapshottedItem).product_name = "Burger" ∧
    (OrderItem.save sampleUnsnapshottedItem).unit_price = 1000 :=
  ⟨(order_item_save_spec sampleUnsnapshottedItem).2.2.1 ⟨"Burger", 1000⟩ rfl rfl,
   (order_item_save_spec sampleUnsnapshottedItem).2.2.2.1 ⟨"Burger", 1000⟩ rfl rfl⟩

/-- Updating row `n` rewrites exactly that row. -/
theorem modifyIdx_getElem?_self (f : OrderItem → OrderItem) :
    ∀ (n : Nat) (l : List OrderItem), (modifyIdx f n l)[n]? = l[n]?.map f
  | _, [] => by simp [modifyIdx]
  | 0, _ :: _ => by simp [modifyIdx]
  | n + 1, _ :: xs => by simpa [modifyIdx] using modifyIdx_getElem?_self f n xs

/-- Updating row `n` leaves every other row alone. -/
theorem modifyIdx_getElem?_ne (f : OrderItem → OrderItem) :
    ∀ (n j : Nat), j ≠ n → ∀ (l : List OrderItem), (modifyIdx f n l)[j]? = l[j]?
  | _, _, _, [] => by simp [modifyIdx]
  | 0, 0, h, _ :: _ => absurd rfl h
  | 0, _ + 1, _, _ :: _ => by simp [modifyIdx]
  | _ + 1, 0, _, _ :: _ => by simp [modifyIdx]
  | n + 1, j + 1, h, _ :: xs => by
    simpa [modifyIdx] using modifyIdx_getElem?_ne f n j (fun hj => h (by omega)) xs

/-- Updating a row does not change the number of rows. -/
theorem modifyIdx_length (f : OrderItem → OrderItem) :
    ∀ (n : Nat) (l : List OrderItem), (modifyIdx f n l).length = l.length
  | n, [] => by cases n <;> rfl
  | 0, _ :: _ => rfl
  | n + 1, _ :: xs => by simpa [modifyIdx] using modifyIdx_length f n xs

/-- C3: `fire` puts the order in `preparing` with `fired_at = now`, and
moves every non-deleted pending item to `preparing` stamped with the same
`now`; a non-deleted item in any other status is untouched. -/
theorem fire_spec (now : Nat) (o : Order) :
    (o.fire now).status = OrderStatus.preparing ∧
    (o.fire now).fired_at = some now ∧
    (o.fire now).items.length = o.items.length ∧
    ∀ (idx : Nat) (i : OrderItem), o.items[idx]? = some i → i.is_deleted = false →
      (i.status = ItemStatus.pending →
        (o.fire now).items[idx]? =
          some { i with status := ItemStatus.preparing, fired_at := some now }) ∧
      (i.status ≠ ItemStatus.pending → (o.fire now).items[idx]? = some i) := by
  refine ⟨rfl, rfl, by simp [Order.fire], fun idx i hi hdel => ⟨fun hs => ?_, fun hs => ?_⟩⟩ <;>
    simp [Order.fire, List.getElem?_map, hi, hdel, hs]

/-- Witness for C3 at `samplePendingOrder`, fired at instant 5: the
pending item comes out `preparing` with `fired_at = 5`. -/
theorem fire_spec_witness :
    (Order.fire 5 samplePendingOrder).items[0]? =
      some { product_name := "Fries", unit_price := 350, quantity := 1, total := 350,
             status := ItemStatus.preparing, fired_at := some 5 } :=
  ((fire_spec 5 samplePendingOrder).2.2.2 0 _ rfl rfl).1 rfl

/-- C6: `is_delayed` holds exactly when the status is `pending` or
`preparing` and the elapsed minutes strictly exceed the hub's threshold
(so at the boundary, elapsed = threshold, the order is not delayed);
`elapsed_minutes` is 0 when the order was never fired and otherwise the
whole minutes between `fired_at` and `now`. -/
theorem is_delayed_spec (s : OrdersSettings) (now : Nat) (o : Order) :
    (o.is_delayed s now = true ↔
      ((o.status = OrderStatus.pending ∨ o.status = OrderStatus.preparing) ∧
        s.alert_threshold_minutes < o.elapsed_minutes now)) ∧
    (o.fired_at = none → o.elapsed_minutes now = 0) ∧
    (∀ f, o.fired_at = some f → o.elapsed_minutes now = (now - f) / 60) ∧
    (o.elapsed_minutes now = s.alert_threshold_minutes → o.is_delayed s now = false) := by
  refine ⟨by simp [Order.is_delayed], fun h => by simp [Order.elapsed_minutes, h],
    fun f h => by simp [Order.elapsed_minutes, h], fun h => by simp [Order.is_delayed, h]⟩

/-- Witness for C6 at `sampleFiredOrder` with the default threshold 15:
at 900 s (elapsed 15 min) the order is not delayed; at 960 s (elapsed
16 min) it is. -/
theorem is_delayed_spec_witness :
    Order.is_delayed ⟨15⟩ 900 sampleFiredOrder = false ∧
    Order.is_delayed ⟨15⟩ 960 sampleFiredOrder = true :=
  ⟨(is_delayed_spec ⟨15⟩ 900 sampleFiredOrder).2.2.2 (by decide),
   (is_delayed_spec ⟨15⟩ 960 sampleFiredOrder).1.mpr ⟨Or.inr rfl, by decide⟩⟩

/-- The `.exists()` sibling check is negative exactly when every
non-deleted item of the list has status in {ready, served, cancelled}. -/
theorem anyActiveItem_false_iff (l : List OrderItem) :
    anyActiveItem l = false ↔
      ∀ (j : Nat) (ij : OrderItem), l[j]? = some ij → ij.is_deleted = false →
        (ij.status = ItemStatus.ready ∨ ij.status = ItemStatus.served ∨
          ij.status = ItemStatus.cancelled) := by
  have hmem : anyActiveItem l = true ↔
      ∃ ij ∈ l, ij.is_deleted = false ∧
        ¬(ij.status = ItemStatus.ready ∨ ij.status = ItemStatus.served ∨
          ij.status = ItemStatus.cancelled) := by
    simp [anyActiveItem, List.any_eq_true, List.mem_filter, and_assoc]
  constructor
  · intro hfalse j ij hj hdel
    by_contra hnd
    have htrue : anyActiveItem l = true :=
      hmem.mpr ⟨ij, List.getElem?_mem hj, hdel, hnd⟩
    rw [hfalse] at htrue
    exact Bool.false_ne_true htrue
  · intro hall
    rw [Bool.eq_false_iff]
    intro htrue
    obtain ⟨ij, hmem', hdel, hnd⟩ := hmem.mp htrue
    obtain ⟨j, hj⟩ := List.getElem?_of_mem hmem'
    exact hnd (hall j ij hj hdel)

/-- C4: `OrderItem.mark_ready` on the item at `idx` sets that item to
`ready` with `completed_at = now` and touches no other item; the parent
order becomes `ready` (with `ready_at` set) exactly when, after the
item's own save, no non-deleted item of the order has a status outside
{ready, served, cancelled}; when such an item remains, the order's
status and `ready_at` are unchanged. -/
theorem item_mark_ready_spec (now nowOrder : Nat) (o : Order) (idx : Nat) (i : OrderItem)
    (hi : o.items[idx]? = some i) :
    (OrderItem.mark_ready now nowOrder o idx).items[idx]? =
      some { i with status := ItemStatus.ready, completed_at := some now } ∧
    (∀ j : Nat, j ≠ idx →
      (OrderItem.mark_ready now nowOrder o idx).items[j]? = o.items[j]?) ∧
    ((∀ (j : Nat) (ij : OrderItem),
        (OrderItem.mark_ready now nowOrder o idx).items[j]? = some ij →
        ij.is_deleted = false →
        (ij.status = ItemStatus.ready ∨ ij.status = ItemStatus.served ∨
          ij.status = ItemStatus.cancelled)) →
      (OrderItem.mark_ready now nowOrder o idx).status = OrderStatus.ready ∧
      (OrderItem.mark_ready now nowOrder o idx).ready_at = some nowOrder) ∧
    ((∃ (j : Nat) (ij : OrderItem),
        (OrderItem.mark_ready now nowOrder o idx).items[j]? = some ij ∧
        ij.is_deleted = false ∧
        ¬(ij.status = ItemStatus.ready ∨ ij.status = ItemStatus.served ∨
          ij.status = ItemStatus.cancelled)) →
      (OrderItem.mark_ready now nowOrder o idx).status = o.status ∧
      (OrderItem.mark_ready now nowOrder o idx).ready_at = o.ready_at) := by
  have hitems : (OrderItem.mark_ready now nowOrder o idx).items =
      modifyIdx (markReadyItem now) idx o.items := by
    by_cases hc : anyActiveItem (modifyIdx (markReadyItem now) idx o.items) = false <;>
      simp [OrderItem.mark_ready, hc, Order.mark_ready]
  refine ⟨?_, fun j hj => ?_, fun hall => ?_, fun hex => ?_⟩
  · rw [hitems, modifyIdx_getElem?_self, hi]
    rfl
  · rw [hitems]
    exact modifyIdx_getElem?_ne _ idx j hj o.items
  · rw [hitems] at hall
    have hp : anyActiveItem (modifyIdx (markReadyItem now) idx o.items) = false :=
      (anyActiveItem_false_iff _).mpr hall
    constructor <;> simp [OrderItem.mark_ready, hp, Order.mark_ready]
  · rw [hitems] at hex
    obtain ⟨j, ij, hj, hdel, hnd⟩ := hex
    have hp : anyActiveItem (modifyIdx (markReadyItem now) idx o.items) ≠ false := by
      intro hp
      exact hnd ((anyActiveItem_false_iff _).mp hp j ij hj hdel)
    constructor <;> simp [OrderItem.mark_ready, hp]

/-- Witness for C4 at `samplePendingOrder` (one pending item), marking
item 0 ready at instant 7 while the order-level save happens at 8: the
cascade fires and the order is `ready` with `ready_at = 8`. -/
theorem item_mark_ready_spec_witness :
    (OrderItem.mark_ready 7 8 samplePendingOrder 0).status = OrderStatus.ready ∧
    (OrderItem.mark_ready 7 8 samplePendingOrder 0).ready_at = some 8 :=
  (item_mark_ready_spec 7 8 samplePendingOrder 0 _ rfl).2.2.1 (by
    intro j ij hj hdel
    have hlen : (OrderItem.mark_ready 7 8 samplePendingOrder 0).items.length = 1 := by decide
    have hjlt : j < 1 := by
      by_contra hge
      rw [List.getElem?_eq_none_iff.mpr (by omega)] at hj
      exact Option.noConfusion hj
    have hj0 : j = 0 := by omega
    subst hj0
    cases Option.some.inj hj
    exact Or.inl rfl)

/-- C7: the cancel endpoint refuses (and mutates nothing) when the order
is `paid` or `cancelled`; otherwise it succeeds, the order becomes
`cancelled`, a non-empty reason is appended to the notes as
`"\\nCancelled: <reason>"` (then stripped), an empty reason leaves the
notes alone, and every non-deleted item becomes `cancelled` while
deleted items stay untouched. -/
theorem cancel_order_view_spec (o : Order) (reason : String) :
    ((o.status = OrderStatus.paid ∨ o.status = OrderStatus.cancelled) →
      cancel_order_view o reason = (o, false)) ∧
    (o.status ≠ OrderStatus.paid → o.status ≠ OrderStatus.cancelled →
      (cancel_order_view o reason).2 = true ∧
      (cancel_order_view o reason).1.status = OrderStatus.cancelled ∧
      (reason ≠ "" →
        (cancel_order_view o reason).1.notes = pyStrip (o.notes ++ "\nCancelled: " ++ reason)) ∧
      (reason = "" → (cancel_order_view o reason).1.notes = o.notes) ∧
      (∀ (j : Nat) (i : OrderItem), o.items[j]? = some i → i.is_deleted = false →
        (cancel_order_view o reason).1.items[j]? =
          some { i with status := ItemStatus.cancelled }) ∧
      (∀ (j : Nat) (i : OrderItem), o.items[j]? = some i → i.is_deleted = true →
        (cancel_order_view o reason).1.items[j]? = some i)) := by
  constructor
  · intro h
    simp [cancel_order_view, h]
  · intro h1 h2
    have hred : cancel_order_view o reason = (o.cancel reason, true) := by
      simp [cancel_order_view, h1, h2]
    rw [hred]
    refine ⟨rfl, rfl, fun hr => ?_, fun hr => ?_, fun j i hj hdel => ?_, fun j i hj hdel => ?_⟩
    · simp [Order.cancel, hr]
    · simp [Order.cancel, hr]
    · simp [Order.cancel, List.getElem?_map, hj, hdel]
    · simp [Order.cancel, List.getElem?_map, hj, hdel]

/-- Witness for C7: cancelling a paid order is refused and changes
nothing; cancelling a pending order with reason "late" cancels it and
appends the reason to the notes. -/
theorem cancel_order_view_spec_witness :
    cancel_order_view samplePaidOrder "late" = (samplePaidOrder, false) ∧
    (cancel_order_view sampleCancellableOrder "late").1.status = OrderStatus.cancelled ∧
    (cancel_order_view sampleCancellableOrder "late").1.notes = "table 5\nCancelled: late" :=
  ⟨(cancel_order_view_spec samplePaidOrder "late").1 (Or.inl rfl),
   ((cancel_order_view_spec sampleCancellableOrder "late").2 (by decide) (by decide)).2.1,
   by
    rw [((cancel_order_view_spec sampleCancellableOrder "late").2 (by decide)
      (by decide)).2.2.1 (by decide)]
    decide⟩

/-- C8: `recall` on a non-ready order is the identity (silent no-op); on
a ready order it moves the order back to `preparing`, clears `ready_at`,
moves every non-deleted ready item back to `preparing` with
`completed_at` cleared, and leaves every other item as it was. -/
theorem recall_spec (o : Order) :
    (o.status ≠ OrderStatus.ready → o.recall = o) ∧
    (o.status = OrderStatus.ready →
      (o.recall).status = OrderStatus.preparing ∧
      (o.recall).ready_at = none ∧
      ∀ (j : Nat) (i : OrderItem), o.items[j]? = some i →
        ((i.is_deleted = false ∧ i.status = ItemStatus.ready) →
          (o.recall).items[j]? =
            some { i with status := ItemStatus.preparing, completed_at := none }) ∧
        (¬(i.is_deleted = false ∧ i.status = ItemStatus.ready) →
          (o.recall).items[j]? = some i)) := by
  refine ⟨fun h => by simp [Order.recall, h], fun h => ?_⟩
  refine ⟨by simp [Order.recall, h], by simp [Order.recall, h],
    fun j i hj => ⟨fun hc => ?_, fun hc => ?_⟩⟩ <;>
    simp [Order.recall, h, List.getElem?_map, hj, hc]

/-- Witness for C8: recalling a pending order changes nothing; recalling
a ready order puts it (and its ready item) back in `preparing`. -/
theorem recall_spec_witness :
    Order.recall samplePendingOrder = samplePendingOrder ∧
    (Order.recall sampleReadyOrder).status = OrderStatus.preparing ∧
    (Order.recall sampleReadyOrder).items[0]? =
      some { sampleReadyItem with status := ItemStatus.preparing, completed_at := none } :=
  ⟨(recall_spec samplePendingOrder).1 (by decide),
   ((recall_spec sampleReadyOrder).2 rfl).1,
   (((recall_spec sampleReadyOrder).2 rfl).2.2 0 sampleReadyItem rfl).1 (by decide)⟩

/-- Method `OrderItem.cancel` changes neither `is_deleted` nor `total` of any
row, so the multiset of non-deleted line totals is untouched. -/
theorem modifyIdx_cancel_totals :
    ∀ (n : Nat) (l : List OrderItem),
      (((modifyIdx OrderItem.cancel n l).filter fun i => !i.is_deleted).map fun i => i.total) =
        ((l.filter fun i => !i.is_deleted).map fun i => i.total)
  | n, [] => by cases n <;> rfl
  | 0, x :: xs => by
    by_cases hd : x.is_deleted <;> simp [modifyIdx, OrderItem.cancel, List.filter_cons, hd]
  | n + 1, x :: xs => by
    by_cases hd : x.is_deleted <;>
      simp [modifyIdx, List.filter_cons, hd, modifyIdx_cancel_totals n xs]

/-- C10: cancelling the item at `idx` sets exactly that item's status to
`cancelled`; every other item, the order's status, notes, financial
fields and timestamps are untouched; and since no totals recalculation
is triggered, `calculate_totals` computed afterwards still counts the
cancelled item exactly as before. -/
theorem item_cancel_frame_spec (o : Order) (idx : Nat) (i : OrderItem)
    (hi : o.items[idx]? = some i) :
    (cancelItemInOrder o idx).items[idx]? = some { i with status := ItemStatus.cancelled } ∧
    (∀ j : Nat, j ≠ idx → (cancelItemInOrder o idx).items[j]? = o.items[j]?) ∧
    (cancelItemInOrder o idx).status = o.status ∧
    (cancelItemInOrder o idx).notes = o.notes ∧
    (cancelItemInOrder o idx).subtotal = o.subtotal ∧
    (cancelItemInOrder o idx).discount = o.discount ∧
    (cancelItemInOrder o idx).tax = o.tax ∧
    (cancelItemInOrder o idx).total = o.total ∧
    (cancelItemInOrder o idx).fired_at = o.fired_at ∧
    (cancelItemInOrder o idx).ready_at = o.ready_at ∧
    (cancelItemInOrder o idx).served_at = o.served_at ∧
    ((cancelItemInOrder o idx).calculate_totals).1.subtotal =
      (o.calculate_totals).1.subtotal ∧
    ((cancelItemInOrder o idx).calculate_totals).2 = (o.calculate_totals).2 := by
  refine ⟨?_, fun j hj => ?_, rfl, rfl, rfl, rfl, rfl, rfl, rfl, rfl, rfl, ?_, ?_⟩
  · show (modifyIdx OrderItem.cancel idx o.items)[idx]? = _
    rw [modifyIdx_getElem?_self, hi]
    rfl
  · exact modifyIdx_getElem?_ne _ idx j hj o.items
  · simp [Order.calculate_totals, cancelItemInOrder, modifyIdx_cancel_totals idx o.items]
  · simp [Order.calculate_totals, cancelItemInOrder, modifyIdx_cancel_totals idx o.items]

/-- Witness for C10: cancelling item 0 of the two-line order leaves its
sibling, the order status, and the value `calculate_totals` would
compute unchanged. -/
theorem item_cancel_frame_spec_witness :
    (cancelItemInOrder sampleTwoItemOrder 0).items[1]? = some sampleFriesItem ∧
    (cancelItemInOrder sampleTwoItemOrder 0).status = sampleTwoItemOrder.status ∧
    ((cancelItemInOrder sampleTwoItemOrder 0).calculate_totals).2 =
      (sampleTwoItemOrder.calculate_totals).2 :=
  ⟨((item_cancel_frame_spec sampleTwoItemOrder 0 sampleBurgerItem rfl).2.1 1
      (by decide)).trans rfl,
   (item_cancel_frame_spec sampleTwoItemOrder 0 sampleBurgerItem rfl).2.2.1,
   (item_cancel_frame_spec sampleTwoItemOrder 0
      sampleBurgerItem rfl).2.2.2.2.2.2.2.2.2.2.2.2⟩

/-- Predicate `stationIsActive` holds exactly when the station row exists and is
active. -/
theorem stationIsActive_iff (db : RoutingDB) (sid : Nat) :
    stationIsActive db sid = true ↔
      ∃ s, findStation db sid = some s ∧ s.is_active = true := by
  unfold stationIsActive
  cases findStation db sid <;> simp

/-- With at most one mapping row per product (the `unique_together`
constraint), a qualifying row pins down the `.get(...)` result. -/
theorem productStation_lookup_eq (db : RoutingDB) (pid : Nat) (m : ProductStationRow)
    (hu : ∀ m₁ ∈ db.product_mappings, ∀ m₂ ∈ db.product_mappings,
      m₁.product_id = m₂.product_id → m₁ = m₂)
    (hm : m ∈ db.product_mappings) (hpid : m.product_id = pid) (hdel : m.is_deleted = false)
    (hact : stationIsActive db m.station_id = true) :
    ProductStationRow.get_station_for_product db pid = findStation db m.station_id := by
  unfold ProductStationRow.get_station_for_product
  cases hfind : db.product_mappings.find? (fun m =>
      decide (m.product_id = pid) && !m.is_deleted && stationIsActive db m.station_id) with
  | none =>
    exfalso
    have hnone := List.find?_eq_none.mp hfind m hm
    simp [hpid, hdel, hact] at hnone
  | some mFound =>
    have hpred := List.find?_some hfind
    have hmem := List.mem_of_find?_eq_some hfind
    simp only [Bool.and_eq_true, decide_eq_true_eq, Bool.not_eq_true'] at hpred
    rw [hu mFound hmem m hm (by rw [hpred.1.1, hpid])]

/-- When no non-deleted mapping row with an active station exists for the
product, the `.get(...)` raises `DoesNotExist` and the classmethod
returns `none`. -/
theorem productStation_lookup_none (db : RoutingDB) (pid : Nat)
    (hnone : ¬ ∃ m ∈ db.product_mappings, m.product_id = pid ∧ m.is_deleted = false ∧
      stationIsActive db m.station_id = true) :
    ProductStationRow.get_station_for_product db pid = none := by
  unfold ProductStationRow.get_station_for_product
  cases hfind : db.product_mappings.find? (fun m =>
      decide (m.product_id = pid) && !m.is_deleted && stationIsActive db m.station_id) with
  | none => rfl
  | some mFound =>
    exfalso
    have hpred := List.find?_some hfind
    have hmem := List.mem_of_find?_eq_some hfind
    simp only [Bool.and_eq_true, decide_eq_true_eq, Bool.not_eq_true'] at hpred
    exact hnone ⟨mFound, hmem, hpred.1.1, hpred.1.2, hpred.2⟩

/-- Category analogue of `productStation_lookup_eq`. -/
theorem categoryStation_lookup_eq (db : RoutingDB) (cid : Nat) (c : CategoryStationRow)
    (hu : ∀ c₁ ∈ db.category_mappings, ∀ c₂ ∈ db.category_mappings,
      c₁.category_id = c₂.category_id → c₁ = c₂)
    (hc : c ∈ db.category_mappings) (hcid : c.category_id = cid) (hdel : c.is_deleted = false)
    (hact : stationIsActive db c.station_id = true) :
    CategoryStationRow.get_station_for_category db cid = findStation db c.station_id := by
  unfold CategoryStationRow.get_station_for_category
  cases hfind : db.category_mappings.find? (fun m =>
      decide (m.category_id = cid) && !m.is_deleted && stationIsActive db m.station_id) with
  | none =>
    exfalso
    have hnone := List.find?_eq_none.mp hfind c hc
    simp [hcid, hdel, hact] at hnone
  | some cFound =>
    have hpred := List.find?_some hfind
    have hmem := List.mem_of_find?_eq_some hfind
    simp only [Bool.and_eq_true, decide_eq_true_eq, Bool.not_eq_true'] at hpred
    rw [hu cFound hmem c hc (by rw [hpred.1.1, hcid])]

/-- Category analogue of `productStation_lookup_none`. -/
theorem categoryStation_lookup_none (db : RoutingDB) (cid : Nat)
    (hnone : ¬ ∃ c ∈ db.category_mappings, c.category_id = cid ∧ c.is_deleted = false ∧
      stationIsActive db c.station_id = true) :
    CategoryStationRow.get_station_for_category db cid = none := by
  unfold CategoryStationRow.get_station_for_category
  cases hfind : db.category_mappings.find? (fun m =>
      decide (m.category_id = cid) && !m.is_deleted && stationIsActive db m.station_id) with
  | none => rfl
  | some cFound =>
    exfalso
    have hpred := List.find?_some hfind
    have hmem := List.mem_of_find?_eq_some hfind
    simp only [Bool.and_eq_true, decide_eq_true_eq, Bool.not_eq_true'] at hpred
    exact hnone ⟨cFound, hmem, hpred.1.1, hpred.1.2, hpred.2⟩

/-- Primary keys are unique, so a product row pins down the product
lookup. -/
theorem product_lookup_eq (db : RoutingDB) (pid : Nat) (p : ProductRow)
    (hu : ∀ p₁ ∈ db.products, ∀ p₂ ∈ db.products, p₁.id = p₂.id → p₁ = p₂)
    (hp : p ∈ db.products) (hid : p.id = pid) :
    db.products.find? (fun q => decide (q.id = pid)) = some p := by
  cases hfind : db.products.find? (fun q => decide (q.id = pid)) with
  | none =>
    exfalso
    have hnone := List.find?_eq_none.mp hfind p hp
    simp [hid] at hnone
  | some pFound =>
    have hpred := List.find?_some hfind
    have hmem := List.mem_of_find?_eq_some hfind
    simp only [decide_eq_true_eq] at hpred
    rw [hu pFound hmem p hp (by rw [hpred, hid])]

/-- C5: station resolution. Under the uniqueness constraints of the
mapping tables and the product table, `get_station_for_product` returns
the station of the (non-deleted) direct product mapping whenever that
station is active; when no such qualifying product mapping exists, it
returns the station of the product's (non-deleted) category mapping
whenever that station is active; and when neither qualifies (including
the cases of a missing product or a product with no category) it
returns `none`. The resolver is a pure function of `db`: it has no side
effects. -/
theorem routing_resolution_spec (db : RoutingDB) (pid : Nat)
    (huP : ∀ m₁ ∈ db.product_mappings, ∀ m₂ ∈ db.product_mappings,
      m₁.product_id = m₂.product_id → m₁ = m₂)
    (huC : ∀ c₁ ∈ db.category_mappings, ∀ c₂ ∈ db.category_mappings,
      c₁.category_id = c₂.category_id → c₁ = c₂)
    (huProd : ∀ p₁ ∈ db.products, ∀ p₂ ∈ db.products, p₁.id = p₂.id → p₁ = p₂) :
    (∀ m ∈ db.product_mappings, m.product_id = pid → m.is_deleted = false →
      stationIsActive db m.station_id = true →
      get_station_for_product db pid = findStation db m.station_id) ∧
    ((¬ ∃ m ∈ db.product_mappings, m.product_id = pid ∧ m.is_deleted = false ∧
        stationIsActive db m.station_id = true) →
      ∀ p ∈ db.products, p.id = pid → ∀ cid, p.category_id = some cid →
        ∀ c ∈ db.category_mappings, c.category_id = cid → c.is_deleted = false →
          stationIsActive db c.station_id = true →
          get_station_for_product db pid = findStation db c.station_id) ∧
    ((¬ ∃ m ∈ db.product_mappings, m.product_id = pid ∧ m.is_deleted = false ∧
        stationIsActive db m.station_id = true) →
      (∀ p ∈ db.products, p.id = pid → ∀ cid, p.category_id = some cid →
        ¬ ∃ c ∈ db.category_mappings, c.category_id = cid ∧ c.is_deleted = false ∧
          stationIsActive db c.station_id = true) →
      get_station_for_product db pid = none) := by
  refine ⟨fun m hm hpid hdel hact => ?_, fun hnoP p hp hid cid hcid c hc hccid hcdel hcact => ?_,
    fun hnoP hnoC => ?_⟩
  · have h1 := productStation_lookup_eq db pid m huP hm hpid hdel hact
    obtain ⟨st, hst, _⟩ := (stationIsActive_iff db m.station_id).mp hact
    simp [get_station_for_product, h1, hst]
  · have h1 := productStation_lookup_none db pid hnoP
    have h2 := product_lookup_eq db pid p huProd hp hid
    have h3 := categoryStation_lookup_eq db cid c huC hc hccid hcdel hcact
    obtain ⟨st, hst, _⟩ := (stationIsActive_iff db c.station_id).mp hcact
    simp [get_station_for_product, h1, h2, hcid, h3, hst]
  · have h1 := productStation_lookup_none db pid hnoP
    unfold get_station_for_product
    rw [h1]
    cases hfind : db.products.find? (fun q => decide (q.id = pid)) with
    | none => rfl
    | some p =>
      have hpred := List.find?_some hfind
      have hmem := List.mem_of_find?_eq_some hfind
      simp only [decide_eq_true_eq] at hpred
      cases hcid : p.category_id with
      | none => simp [hcid]
      | some cid =>
        simp [hcid, categoryStation_lookup_none db cid (hnoC p hmem hpred cid hcid)]

/-- Witness for C5 on `sampleRoutingDB`: a direct mapping wins, the
category fallback fires when there is none, and an unknown product is
unrouted. -/
theorem routing_resolution_spec_witness :
    get_station_for_product sampleRoutingDB 10 = some ⟨1, true⟩ ∧
    get_station_for_product sampleRoutingDB 20 = some ⟨2, true⟩ ∧
    get_station_for_product sampleRoutingDB 99 = none :=
  ⟨((routing_resolution_spec sampleRoutingDB 10 (by decide) (by decide) (by decide)).1
      ⟨10, 1, false⟩ (by decide) rfl rfl (by decide)).trans (by decide),
   ((routing_resolution_spec sampleRoutingDB 20 (by decide) (by decide) (by decide)).2.1
      (by decide) ⟨20, some 5⟩ (by decide) rfl 5 rfl ⟨5, 2, false⟩ (by decide) rfl rfl
      (by decide)).trans (by decide),
   (routing_resolution_spec sampleRoutingDB 99 (by decide) (by decide) (by decide)).2.2
      (by decide) (by decide)⟩

/-- Every digit character `decDigit` produces satisfies `Char.isDigit`. -/
theorem decDigit_isDigit (d : Nat) : (decDigit d).isDigit = true := by
  unfold decDigit
  split <;> decide

/-- Code point of a digit character. -/
theorem decDigit_toNat (d : Nat) (h : d ≤ 9) : (decDigit d).toNat = 48 + d := by
  interval_cases d <;> decide

/-- Two-digit unfolding of `decRepr`. -/
theorem decRepr2 (n : Nat) (h1 : 10 ≤ n) (h2 : n < 100) :
    decRepr n = [decDigit (n / 10), decDigit (n % 10)] := by
  rw [decRepr_ge10 n (by omega), decRepr_lt10 (n / 10) (by omega)]
  rfl

/-- Three-digit unfolding of `decRepr`. -/
theorem decRepr3 (n : Nat) (h1 : 100 ≤ n) (h2 : n < 1000) :
    decRepr n = [decDigit (n / 100), decDigit (n / 10 % 10), decDigit (n % 10)] := by
  rw [decRepr_ge10 n (by omega), decRepr2 (n / 10) (by omega) (by omega)]
  have e : n / 10 / 10 = n / 100 := by omega
  rw [e]
  rfl

/-- Four-digit unfolding of `decRepr`. -/
theorem decRepr4 (n : Nat) (h1 : 1000 ≤ n) (h2 : n < 10000) :
    decRepr n =
      [decDigit (n / 1000), decDigit (n / 100 % 10), decDigit (n / 10 % 10),
        decDigit (n % 10)] := by
  rw [decRepr_ge10 n (by omega), decRepr3 (n / 10) (by omega) (by omega)]
  have e1 : n / 10 / 100 = n / 1000 := by omega
  have e2 : n / 10 / 10 % 10 = n / 100 % 10 := by omega
  have e3 : n / 10 % 10 = n / 10 % 10 := rfl
  rw [e1, e2]
  rfl

/-- Below 10000, `f"{n:04d}"` is exactly the four digits of `n`. -/
theorem format04_eq_digits4 (m : Nat) (h : m ≤ 9999) : format04 m = digits4 m := by
  rcases Nat.lt_or_ge m 10 with h10 | h10
  · unfold format04 digits4
    rw [decRepr_lt10 m h10]
    have e0 : m / 1000 = 0 := by omega
    have e1 : m / 100 % 10 = 0 := by omega
    have e2 : m / 10 % 10 = 0 := by omega
    have e3 : m % 10 = m := by omega
    rw [e0, e1, e2, e3]
    rfl
  rcases Nat.lt_or_ge m 100 with h100 | h100
  · unfold format04 digits4
    rw [decRepr2 m h10 h100]
    have e0 : m / 1000 = 0 := by omega
    have e1 : m / 100 % 10 = 0 := by omega
    have e2 : m / 10 % 10 = m / 10 := by omega
    rw [e0, e1, e2]
    rfl
  rcases Nat.lt_or_ge m 1000 with h1000 | h1000
  · unfold format04 digits4
    rw [decRepr3 m h100 h1000]
    have e0 : m / 1000 = 0 := by omega
    have e1 : m / 100 % 10 = m / 100 := by omega
    rw [e0, e1]
    rfl
  · unfold format04 digits4
    rw [decRepr4 m h1000 (by omega)]
    rfl

/-- One comparison step of the byte-lexicographic order. -/
theorem lexLt_cons (a b : Char) (as bs : List Char) :
    lexLt (a :: as) (b :: bs) =
      if a.toNat < b.toNat then true
      else if b.toNat < a.toNat then false
      else lexLt as bs := rfl

/-- On padded four-digit blocks the byte order agrees with the numeric
order (strict case). -/
theorem lexLt_digits4_of_lt (x y : Nat) (hy : y ≤ 9999) (hxy : x < y) :
    lexLt (digits4 x) (digits4 y) = true := by
  have key : x / 1000 < y / 1000 ∨ (x / 1000 = y / 1000 ∧
      (x / 100 % 10 < y / 100 % 10 ∨ (x / 100 % 10 = y / 100 % 10 ∧
        (x / 10 % 10 < y / 10 % 10 ∨ (x / 10 % 10 = y / 10 % 10 ∧
          x % 10 < y % 10))))) := by
    omega
  unfold digits4
  rcases key with h | ⟨e0, key⟩
  · rw [lexLt_cons, if_pos (show (decDigit (x / 1000)).toNat < (decDigit (y / 1000)).toNat by
      rw [decDigit_toNat _ (by omega), decDigit_toNat _ (by omega)]; omega)]
  rw [lexLt_cons, e0, if_neg (lt_irrefl _), if_neg (lt_irrefl _)]
  rcases key with h | ⟨e1, key⟩
  · rw [lexLt_cons, if_pos (show (decDigit (x / 100 % 10)).toNat <
        (decDigit (y / 100 % 10)).toNat by
      rw [decDigit_toNat _ (by omega), decDigit_toNat _ (by omega)]; omega)]
  rw [lexLt_cons, e1, if_neg (lt_irrefl _), if_neg (lt_irrefl _)]
  rcases key with h | ⟨e2, key⟩
  · rw [lexLt_cons, if_pos (show (decDigit (x / 10 % 10)).toNat <
        (decDigit (y / 10 % 10)).toNat by
      rw [decDigit_toNat _ (by omega), decDigit_toNat _ (by omega)]; omega)]
  rw [lexLt_cons, e2, if_neg (lt_irrefl _), if_neg (lt_irrefl _)]
  rw [lexLt_cons, if_pos (show (decDigit (x % 10)).toNat < (decDigit (y % 10)).toNat by
    rw [decDigit_toNat _ (by omega), decDigit_toNat _ (by omega)]; omega)]

/-- On padded four-digit blocks the byte order agrees with the numeric
order (non-strict case). -/
theorem lexLt_digits4_of_ge (x y : Nat) (hx : x ≤ 9999) (hyx : y ≤ x) :
    lexLt (digits4 x) (digits4 y) = false := by
  have key : y / 1000 < x / 1000 ∨ (x / 1000 = y / 1000 ∧
      (y / 100 % 10 < x / 100 % 10 ∨ (x / 100 % 10 = y / 100 % 10 ∧
        (y / 10 % 10 < x / 10 % 10 ∨ (x / 10 % 10 = y / 10 % 10 ∧
          (y % 10 < x % 10 ∨ x % 10 = y % 10)))))) := by
    omega
  unfold digits4
  rcases key with h | ⟨e0, key⟩
  · rw [lexLt_cons,
      if_neg (show ¬ (decDigit (x / 1000)).toNat < (decDigit (y / 1000)).toNat by
        rw [decDigit_toNat _ (by omega), decDigit_toNat _ (by omega)]; omega),
      if_pos (show (decDigit (y / 1000)).toNat < (decDigit (x / 1000)).toNat by
        rw [decDigit_toNat _ (by omega), decDigit_toNat _ (by omega)]; omega)]
  rw [lexLt_cons, e0, if_neg (lt_irrefl _), if_neg (lt_irrefl _)]
  rcases key with h | ⟨e1, key⟩
  · rw [lexLt_cons,
      if_neg (show ¬ (decDigit (x / 100 % 10)).toNat < (decDigit (y / 100 % 10)).toNat by
        rw [decDigit_toNat _ (by omega), decDigit_toNat _ (by omega)]; omega),
      if_pos (show (decDigit (y / 100 % 10)).toNat < (decDigit (x / 100 % 10)).toNat by
        rw [decDigit_toNat _ (by omega), decDigit_toNat _ (by omega)]; omega)]
  rw [lexLt_cons, e1, if_neg (lt_irrefl _), if_neg (lt_irrefl _)]
  rcases key with h | ⟨e2, key⟩
  · rw [lexLt_cons,
      if_neg (show ¬ (decDigit (x / 10 % 10)).toNat < (decDigit (y / 10 % 10)).toNat by
        rw [decDigit_toNat _ (by omega), decDigit_toNat _ (by omega)]; omega),
      if_pos (show (decDigit (y / 10 % 10)).toNat < (decDigit (x / 10 % 10)).toNat by
        rw [decDigit_toNat _ (by omega), decDigit_toNat _ (by omega)]; omega)]
  rw [lexLt_cons, e2, if_neg (lt_irrefl _), if_neg (lt_irrefl _)]
  rcases key with h | e3
  · rw [lexLt_cons,
      if_neg (show ¬ (decDigit (x % 10)).toNat < (decDigit (y % 10)).toNat by
        rw [decDigit_toNat _ (by omega), decDigit_toNat _ (by omega)]; omega),
      if_pos (show (decDigit (y % 10)).toNat < (decDigit (x % 10)).toNat by
        rw [decDigit_toNat _ (by omega), decDigit_toNat _ (by omega)]; omega)]
  rw [lexLt_cons, e3, if_neg (lt_irrefl _), if_neg (lt_irrefl _)]
  rfl

/-- Comparing two strings with the same prefix compares the suffixes. -/
theorem lexLt_append_left (common a b : List Char) :
    lexLt (common ++ a) (common ++ b) = lexLt a b := by
  induction common with
  | nil => rfl
  | cons c cs ih => simp [lexLt_cons, lt_self_iff_false, ih]

/-- Comparing two generated numbers with the same prefix compares the
counters. -/
theorem lexLt_encNum (pfx : List Char) (a b : Nat) (ha : a ≤ 9999) (hb : b ≤ 9999) :
    lexLt (encNum pfx a) (encNum pfx b) = lexLt (digits4 a) (digits4 b) := by
  have ea : encNum pfx a = (pfx ++ ['-']) ++ digits4 a := by
    simp [encNum, format04_eq_digits4 a ha]
  have eb : encNum pfx b = (pfx ++ ['-']) ++ digits4 b := by
    simp [encNum, format04_eq_digits4 b hb]
  rw [ea, eb, lexLt_append_left]

/-- The `order_by('-order_number').first()` fold over generated numbers
tracks the numeric maximum of the counters. -/
theorem lexMaxAux_encNum (pfx : List Char) :
    ∀ (cs : List Nat) (a : Nat), a ≤ 9999 → (∀ c ∈ cs, c ≤ 9999) →
      lexMaxAux (encNum pfx a) (cs.map (encNum pfx)) = encNum pfx (cs.foldl Nat.max a)
  | [], _, _, _ => rfl
  | c :: cs, a, ha, hall => by
    have hc : c ≤ 9999 := hall c (List.mem_cons_self c cs)
    have hstep : (if lexLt (encNum pfx a) (encNum pfx c) then encNum pfx c else encNum pfx a) =
        encNum pfx (Nat.max a c) := by
      by_cases hlt : a < c
      · rw [lexLt_encNum pfx a c ha hc, lexLt_digits4_of_lt a c hc hlt, if_pos rfl,
          show Nat.max a c = c from Nat.max_eq_right (Nat.le_of_lt hlt)]
      · have hge : c ≤ a := by omega
        rw [lexLt_encNum pfx a c ha hc, lexLt_digits4_of_ge a c ha hge,
          show Nat.max a c = a from Nat.max_eq_left hge]
        rfl
    have hmle : Nat.max a c ≤ 9999 := Nat.max_le.mpr ⟨ha, hc⟩
    show lexMaxAux (if lexLt (encNum pfx a) (encNum pfx c) then encNum pfx c else encNum pfx a)
        (cs.map (encNum pfx)) = _
    rw [hstep,
      lexMaxAux_encNum pfx cs (Nat.max a c) hmle (fun d hd => hall d (List.mem_cons_of_mem c hd))]
    rfl

/-- The fold `List.foldl Nat.max` lands on the stated maximum. -/
theorem foldl_max_eq :
    ∀ (cs : List Nat) (a m : Nat), (m = a ∨ m ∈ cs) → a ≤ m → (∀ c ∈ cs, c ≤ m) →
      List.foldl Nat.max a cs = m
  | [], _, _, h1, _, _ => by
    rcases h1 with rfl | h
    · rfl
    · simp at h
  | c :: cs, a, m, h1, h2, h3 => by
    have hc : c ≤ m := h3 c (List.mem_cons_self c cs)
    refine foldl_max_eq cs (Nat.max a c) m ?_ ?_ (fun d hd => h3 d (List.mem_cons_of_mem c hd))
    · rcases h1 with rfl | h
      · exact Or.inl (Nat.max_eq_left hc).symm
      · rcases List.mem_cons.mp h with rfl | h'
        · exact Or.inl (Nat.max_eq_right h2).symm
        · exact Or.inr h'
    · exact Nat.max_le.mpr ⟨h2, hc⟩

/-- Splitting never returns an empty segment list. -/
theorem splitCh_ne_nil (c : Char) : ∀ l : List Char, splitCh c l ≠ []
  | [] => by simp [splitCh]
  | x :: xs => by
    by_cases hx : x = c
    · simp [splitCh, hx]
    · simp only [splitCh, if_neg hx]
      cases hr : splitCh c xs with
      | nil => simp
      | cons h t => simp

/-- Unfolding `splitCh` when the head is the separator. -/
theorem splitCh_cons_self (c : Char) (l : List Char) :
    splitCh c (c :: l) = [] :: splitCh c l := by
  simp [splitCh]

/-- Unfolding `splitCh` when the head is not the separator. -/
theorem splitCh_cons_ne (c x : Char) (l : List Char) (hx : x ≠ c) :
    splitCh c (x :: l) =
      match splitCh c l with
      | [] => [[x]]
      | h :: t => (x :: h) :: t := by
  simp [splitCh, hx]

/-- Splitting around an occurrence of the separator splits the two
sides independently. -/
theorem splitCh_append (c : Char) :
    ∀ (l₁ l₂ : List Char), splitCh c (l₁ ++ c :: l₂) = splitCh c l₁ ++ splitCh c l₂
  | [], l₂ => by
    rw [List.nil_append, splitCh_cons_self]
    rfl
  | x :: xs, l₂ => by
    by_cases hx : x = c
    · subst hx
      rw [List.cons_append, splitCh_cons_self, splitCh_cons_self, splitCh_append x xs l₂]
      rfl
    · rw [List.cons_append, splitCh_cons_ne c x _ hx, splitCh_cons_ne c x _ hx,
        splitCh_append c xs l₂]
      cases hr : splitCh c xs with
      | nil => exact absurd hr (splitCh_ne_nil c xs)
      | cons h t => rfl

/-- A list without the separator is one single segment. -/
theorem splitCh_no_sep (c : Char) : ∀ l : List Char, c ∉ l → splitCh c l = [l]
  | [], _ => rfl
  | x :: xs, h => by
    have hx : x ≠ c := by
      rintro rfl
      exact h (List.mem_cons_self x xs)
    have h' : c ∉ xs := fun hm => h (List.mem_cons_of_mem x hm)
    rw [splitCh_cons_ne c x xs hx, splitCh_no_sep c xs h']

/-- Every character `decReprAux` emits is a digit. -/
theorem decReprAux_all_digits :
    ∀ (f n : Nat), ∀ ch ∈ decReprAux f n, ch.isDigit = true
  | 0, n => by simp [decReprAux]
  | f + 1, n => by
    intro ch hch
    by_cases h : n < 10
    · simp only [decReprAux, if_pos h, List.mem_singleton] at hch
      rw [hch]
      exact decDigit_isDigit n
    · simp only [decReprAux, if_neg h, List.mem_append, List.mem_singleton] at hch
      rcases hch with hch | hch
      · exact decReprAux_all_digits f (n / 10) ch hch
      · rw [hch]
        exact decDigit_isDigit (n % 10)

/-- Every character of a padded counter is a digit. -/
theorem format04_all_digits (n : Nat) : ∀ ch ∈ format04 n, ch.isDigit = true := by
  intro ch hch
  rcases List.mem_append.mp hch with h | h
  · rw [List.eq_of_mem_replicate h]
    decide
  · exact decReprAux_all_digits (n + 1) n ch h

/-- Taking `last.split('-')[-1]` of a generated number gives its padded counter. -/
theorem splitCh_last_encNum (pfx : List Char) (m : Nat) :
    (splitCh '-' (encNum pfx m)).getLastD [] = format04 m := by
  have hnd : '-' ∉ format04 m := by
    intro hmem
    have := format04_all_digits m '-' hmem
    exact absurd this (by decide)
  show (splitCh '-' (pfx ++ '-' :: format04 m)).getLastD [] = format04 m
  rw [splitCh_append '-' pfx (format04 m), splitCh_no_sep '-' (format04 m) hnd]
  simp

/-- Parsing a padded counter with `int(...)` recovers the counter. -/
theorem parseNat_format04 (m : Nat) (h : m ≤ 9999) : parseNat (format04 m) = some m := by
  rw [format04_eq_digits4 m h]
  have b0 : m / 1000 ≤ 9 := by omega
  have b1 : m / 100 % 10 ≤ 9 := by omega
  have b2 : m / 10 % 10 ≤ 9 := by omega
  have b3 : m % 10 ≤ 9 := by omega
  have hds : (digits4 m).all (fun c => c.isDigit) = true := by
    simp [digits4, List.all_cons, decDigit_isDigit]
  unfold parseNat
  rw [if_pos ⟨by simp [digits4], hds⟩]
  simp only [digits4, List.foldl]
  rw [decDigit_toNat _ b0, decDigit_toNat _ b1, decDigit_toNat _ b2, decDigit_toNat _ b3]
  congr 1
  omega

/-- C9: order-number generation. If the existing order numbers of the
hub that share the day's prefix are exactly the well-formed numbers
`<prefix>-<format04 c>` for the counters `cs` (all within the four-digit
range), then: with no such number the generated number is
`<prefix>-0001`; and with greatest existing counter `m` the generated
number is `<prefix>-<format04 (m+1)>` — one greater than the highest,
zero-padded to four digits. -/
theorem generate_order_number_spec (pfx : List Char) (existing : List (List Char))
    (cs : List Nat)
    (hmatch : existing.filter (fun s => startsWith s pfx) =
      cs.map (fun c => pfx ++ '-' :: format04 c))
    (hbound : ∀ c ∈ cs, c ≤ 9999) :
    (cs = [] → generate_order_number pfx existing = pfx ++ '-' :: format04 1) ∧
    (∀ m ∈ cs, (∀ c ∈ cs, c ≤ m) → m ≤ 9998 →
      generate_order_number pfx existing = pfx ++ '-' :: format04 (m + 1)) := by
  have e1 : generate_order_number pfx existing =
      (match lexMax? (existing.filter fun s => startsWith s pfx) with
       | none => pfx ++ '-' :: format04 1
       | some last =>
         pfx ++ '-' :: format04 (match parseNat ((splitCh '-' last).getLastD []) with
           | some n => n + 1
           | none => 1)) := rfl
  constructor
  · intro hnil
    subst hnil
    simp only [List.map_nil] at hmatch
    rw [e1, hmatch]
    rfl
  · intro m hm hmax hm9998
    have hmb : m ≤ 9999 := by omega
    cases cs with
    | nil => exact absurd hm (List.not_mem_nil m)
    | cons c rest =>
      have hcb : c ≤ 9999 := hbound c (List.mem_cons_self c rest)
      have hrestb : ∀ d ∈ rest, d ≤ 9999 := fun d hd => hbound d (List.mem_cons_of_mem c hd)
      have hfold : rest.foldl Nat.max c = m := by
        refine foldl_max_eq rest c m ?_ (hmax c (List.mem_cons_self c rest))
          (fun d hd => hmax d (List.mem_cons_of_mem c hd))
        rcases List.mem_cons.mp hm with rfl | h
        · exact Or.inl rfl
        · exact Or.inr h
      have hmax? : lexMax? (existing.filter fun s => startsWith s pfx) =
          some (encNum pfx m) := by
        rw [hmatch]
        show some (lexMaxAux (encNum pfx c) (rest.map (encNum pfx))) = _
        rw [lexMaxAux_encNum pfx rest c hcb hrestb, hfold]
      rw [e1, hmax?]
      show pfx ++ '-' :: format04 (match parseNat ((splitCh '-' (encNum pfx m)).getLastD []) with
        | some n => n + 1
        | none => 1) = _
      rw [splitCh_last_encNum pfx m, parseNat_format04 m hmb]

/-- Witness for C9: with 20260101-0001 and 20260101-0002 on file the
next number is 20260101-0003; with nothing on file it is
20260101-0001. -/
theorem generate_order_number_spec_witness :
    generate_order_number sampleDayPfx sampleExisting = sampleDayPfx ++ '-' :: format04 3 ∧
    generate_order_number sampleDayPfx [] = sampleDayPfx ++ '-' :: format04 1 :=
  ⟨(generate_order_number_spec sampleDayPfx sampleExisting [1, 2]
      (by decide) (by decide)).2 2 (by decide) (by decide) (by decide),
   (generate_order_number_spec sampleDayPfx [] []
      (by decide) (by decide)).1 rfl⟩

end Orders
